import Mathlib

/-!
Verification of the chain controller of the evt repository
(src/libraries/chain/controller.cpp) against its natural-language
specification.

The controller is shallowly embedded: the pieces of controller state that the
verified operations touch (the chainbase database with its LIFO undo sessions,
the token database with its revision-tagged savepoints, the fork database, the
pending block state, the block log, the unapplied-transaction map and the
emitted signals) are plain Lean structures, and each controller method is a
pure function from controller state to controller state together with an
outcome that records a normal return or a thrown exception.

Components of the repository that controller.cpp uses but whose sources are
not part of the repository snapshot (block_header_state, fork_database head
selection and branch fetching, token_database savepoints, the transaction
context together with the pluggable apply handlers, and the authorization
checker) are modelled from the specification; each such definition carries a
doc comment saying so.  Times are in microseconds (fc::time_point);
transaction expirations are in seconds (fc::time_point_sec) and are converted
where the source converts them.
-/

namespace EvtChain

/-- A producer schedule: a version number and an ordered producer list
(producer keys abstracted to naturals). -/
structure ProducerSchedule where
  version : Nat
  producers : List Nat
  deriving DecidableEq, Repr

/-- The global_property_object fields the controller reads and writes:
the optional proposed-schedule block number, the proposed schedule, and the
max_transaction_lifetime entry of the chain configuration (in seconds). -/
structure Gpo where
  proposed_schedule_block_num : Option Nat
  proposed_schedule : ProducerSchedule
  max_transaction_lifetime : Nat
  deriving DecidableEq, Repr

/-- One entry of the input-transaction deduplication index
(transaction_object): transaction id and expiration (microseconds). -/
structure DedupEntry where
  trxId : Nat
  expiration : Nat
  deriving DecidableEq, Repr

/-- The visible contents of the chainbase database: the global property
object, the deduplication index, the block-summary ring (modelled sparsely as
an association list from slot to block id) and an abstract component for the
objects owned by the apply handlers. -/
structure DbVal where
  gpo : Gpo
  dedup : List DedupEntry
  summaries : List (Nat × Nat)
  rest : Nat
  deriving DecidableEq, Repr

/-- The chainbase database with its stack of undo states.  undoStack holds
the snapshots taken by start_undo_session, newest first; the entries
correspond to revisions committedRev+1 .. committedRev+undoStack.length. -/
structure Database where
  current : DbVal
  undoStack : List DbVal
  committedRev : Nat
  deriving DecidableEq, Repr

/-- chainbase revision: the committed revision plus one per retained undo
state. -/
def Database.revision (d : Database) : Nat :=
  d.committedRev + d.undoStack.length

/-- chainbase undo(): restore and discard the newest undo state; with no
retained undo state it is a no-op. -/
def Database.undo (d : Database) : Database :=
  match d.undoStack with
  | [] => d
  | s :: rest => { d with current := s, undoStack := rest }

/-- chainbase commit(n): make all revisions up to n permanent by discarding
their undo states (the newest revision - n states are kept). -/
def Database.commit (n : Nat) (d : Database) : Database :=
  { d with undoStack := d.undoStack.take (d.revision - n)
           committedRev := max d.committedRev (min n d.revision) }

/-- Modelled from the spec: the token database exposes named savepoints keyed
by an integer revision; contents are abstracted to a natural number.
savepoints holds (tag, snapshot) pairs, newest first. -/
structure TokenDb where
  current : Nat
  savepoints : List (Nat × Nat)
  deriving DecidableEq, Repr

/-- Modelled from the spec: new_savepoint_session(seq) records a savepoint
tagged seq holding the current contents. -/
def TokenDb.new_savepoint (seq : Nat) (t : TokenDb) : TokenDb :=
  { t with savepoints := (seq, t.current) :: t.savepoints }

/-- Modelled from the spec: rollback_to_latest_savepoint restores the newest
savepoint's snapshot and discards the savepoint; with no savepoint it is a
no-op (never reached by the controller while sessions are balanced). -/
def TokenDb.rollback_to_latest_savepoint (t : TokenDb) : TokenDb :=
  match t.savepoints with
  | [] => t
  | (_, s) :: rest => { current := s, savepoints := rest }

/-- Modelled from the spec: pop_savepoints(n) discards every savepoint with
tag at most n, keeping the contents. -/
def TokenDb.pop_savepoints (n : Nat) (t : TokenDb) : TokenDb :=
  { t with savepoints := t.savepoints.filter (fun sp => n < sp.1) }

/-- An action: (domain, key, name, payload), all abstracted to naturals. -/
structure Action where
  domain : Nat
  key : Nat
  name : Nat
  payload : Nat
  deriving DecidableEq, Repr

/-- A transaction: expiration (seconds, fc::time_point_sec), ordered action
list and signatures. -/
structure Transaction where
  expiration : Nat
  actions : List Action
  signatures : List Nat
  deriving DecidableEq, Repr

/-- A pairing used for the digest oracles.  Injectivity of the oracle is
irrelevant to every claim; only that digests are computed over the stated
inputs in the stated order. -/
def hashCombine (a b : Nat) : Nat :=
  a * 1000003 + b + 1

/-- Modelled from the spec: the transaction id, a digest of the body. -/
def Transaction.trxId (t : Transaction) : Nat :=
  hashCombine t.expiration
    (t.actions.foldl
      (fun a act =>
        hashCombine a
          (hashCombine act.domain (hashCombine act.key (hashCombine act.name act.payload))))
      0)

/-- Modelled from the spec: the signed id, a digest that also covers the
signatures. -/
def Transaction.trxSignedId (t : Transaction) : Nat :=
  hashCombine t.trxId (t.signatures.foldl hashCombine 0)

/-- transaction_metadata: a transaction with its derived ids and the
accepted-signal-emitted flag. -/
structure TrxMeta where
  id : Nat
  signed_id : Nat
  trx : Transaction
  accepted : Bool
  deriving DecidableEq, Repr

/-- transaction_metadata(pt): wrap a transaction, deriving its ids. -/
def mkTrxMeta (t : Transaction) : TrxMeta :=
  { id := t.trxId, signed_id := t.trxSignedId, trx := t, accepted := false }

inductive TrxStatus where
  | executed
  | softFail
  | hardFail
  deriving DecidableEq, Repr

/-- transaction_receipt: status plus the transaction it covers. -/
structure TransactionReceipt where
  status : TrxStatus
  trx : Transaction
  deriving DecidableEq, Repr

/-- transaction_receipt_header: the part of a receipt stored in a trace. -/
structure TransactionReceiptHeader where
  status : TrxStatus
  deriving DecidableEq, Repr

/-- A block header: previous block id, timestamp (microseconds), confirmed
count, the two merkle roots, schedule version and producer signature. -/
structure BlockHeader where
  previous : Nat
  timestamp : Nat
  confirmed : Nat
  actionMroot : Nat
  transactionMroot : Nat
  scheduleVersion : Nat
  producerSignature : Nat
  deriving DecidableEq, Repr

/-- signed_block: header, transaction receipts, and the number of block
extensions (the controller only tests emptiness). -/
structure SignedBlock where
  header : BlockHeader
  transactions : List TransactionReceipt
  blockExtensions : Nat
  deriving DecidableEq, Repr

/-- block_state: a block with its derived header state. -/
structure BlockState where
  id : Nat
  blockNum : Nat
  header : BlockHeader
  block : SignedBlock
  activeSchedule : ProducerSchedule
  pendingSchedule : ProducerSchedule
  pendingScheduleLibNum : Nat
  dposIrreversibleBlocknum : Nat
  bftIrreversibleBlocknum : Nat
  inCurrentChain : Bool
  validated : Bool
  trxs : List TrxMeta
  deriving DecidableEq, Repr

/-- pending_state: the partially built block state and the accumulated
action-receipt digests.  The two open store sessions are represented by the
newest undo state of the Database and the newest savepoint of the TokenDb. -/
structure PendingState where
  blockState : BlockState
  actions : List Nat
  deriving DecidableEq, Repr

/-- Modelled from the spec: the fork database is a set of block states
indexed by id. -/
structure ForkDb where
  blocks : List BlockState
  deriving DecidableEq, Repr

def ForkDb.get_block (f : ForkDb) (id : Nat) : Option BlockState :=
  f.blocks.find? (fun b => b.id == id)

/-- Modelled from the spec: fork-choice tie-breaks between two block states -
higher dpos_irreversible_blocknum, then higher block number, then earlier
timestamp, then smaller id. -/
def BlockState.forkPriorityOver (x y : BlockState) : Bool :=
  if x.dposIrreversibleBlocknum ≠ y.dposIrreversibleBlocknum then
    y.dposIrreversibleBlocknum < x.dposIrreversibleBlocknum
  else if x.blockNum ≠ y.blockNum then
    y.blockNum < x.blockNum
  else if x.header.timestamp ≠ y.header.timestamp then
    x.header.timestamp < y.header.timestamp
  else
    x.id < y.id

/-- Modelled from the spec: the fork database head is the best block state
under the fork-choice order. -/
def ForkDb.headBs (f : ForkDb) : Option BlockState :=
  f.blocks.foldl
    (fun acc b =>
      match acc with
      | none => some b
      | some a => if b.forkPriorityOver a then some b else some a)
    none

/-- Modelled from the spec: mark_in_current_chain updates the flag of the
block state with the given id. -/
def ForkDb.mark_in_current_chain (f : ForkDb) (id : Nat) (v : Bool) : ForkDb :=
  { blocks := f.blocks.map (fun b => if b.id == id then { b with inCurrentChain := v } else b) }

/-- Modelled from the spec: set_validity true marks the block state valid;
set_validity false removes it from the index. -/
def ForkDb.set_validity (f : ForkDb) (id : Nat) (v : Bool) : ForkDb :=
  if v then
    { blocks := f.blocks.map (fun b => if b.id == id then { b with validated := true } else b) }
  else
    { blocks := f.blocks.filter (fun b => b.id != id) }

/-- Modelled from the spec: add a (validated, pending-produced) block state to
the index, replacing any entry with the same id. -/
def ForkDb.addState (f : ForkDb) (bs : BlockState) : ForkDb :=
  { blocks := f.blocks.filter (fun b => b.id != bs.id) ++ [bs] }

/-- One entry of the on-disk block log. -/
structure LogEntry where
  id : Nat
  previous : Nat
  blockNum : Nat
  deriving DecidableEq, Repr

/-- The log entry appended for a block state. -/
def blockStateLogEntry (s : BlockState) : LogEntry :=
  { id := s.id, previous := s.block.header.previous, blockNum := s.blockNum }

/-- The observable signals the controller emits.  Subscriber exceptions are
swallowed by emit, so emission is modelled as appending to this list. -/
inductive Event where
  | acceptedBlockHeader (id : Nat)
  | acceptedBlock (id : Nat)
  | acceptedTransaction (signedId : Nat)
  | appliedTransaction (trxId : Nat)
  | acceptedConfirmation (id : Nat)
  | irreversibleBlock (blockNum : Nat)
  deriving DecidableEq, Repr

/-- The exceptions thrown or captured by the embedded controller code. -/
inductive ChainError where
  | deadlineException
  | txMissingSigs
  | expiredTx
  | txExpTooFar
  | deadlineUninitialized
  | popBeyondIrreversible
  | forkSwitchDesync
  | pendingAlreadyExists
  | revisionMismatch
  | noPendingState
  | noBlogHead
  | irreversibleLinkMismatch
  | irreversibleIdMismatch
  | unsupportedExtensions
  | commitNotHead
  | emptyBranch
  | unlinkableBranch
  | custom (code : Nat)
  | modelFuelExhausted
  deriving DecidableEq, Repr

/-- The result of running a controller method: a normal return or a thrown
exception. -/
inductive Outcome (α : Type) where
  | ok (v : α)
  | threw (e : ChainError)
  deriving DecidableEq, Repr

/-- transaction_trace: the receipt header on success and the captured
exception on failure. -/
structure TransactionTrace where
  receipt : Option TransactionReceiptHeader
  except : Option ChainError
  deriving DecidableEq, Repr

/-- The result of executing one transaction through its transaction context:
okr carries the updated store contents and the executed action-receipt
digests; fail carries a captured fc exception together with the partial store
effects the transaction made before throwing (per the spec, handlers execute
within the outer undo session, so those effects stay in the session); fatal
is a non-fc exception, which the inner catch of push_transaction does not
capture. -/
inductive ExecResult where
  | okr (db : DbVal) (tok : Nat) (executed : List Nat)
  | fail (db : DbVal) (tok : Nat) (e : ChainError)
  | fatal (db : DbVal) (tok : Nat) (e : ChainError)

/-- Modelled from the spec: the external collaborators of the controller -
the transaction context (init/exec/finalize) driving the pluggable apply
handlers, and the authorization checker built over the token database and the
keys recovered from the transaction. -/
structure Env where
  exec : Transaction → Nat → DbVal → Nat → ExecResult
  satisfied : Nat → Transaction → Action → Bool

/-- The controller (controller_impl) state. -/
structure Controller where
  db : Database
  tokenDb : TokenDb
  pending : Option PendingState
  head : BlockState
  forkDb : ForkDb
  unapplied : List (Nat × TrxMeta)
  blog : List LogEntry
  events : List Event
  deriving DecidableEq, Repr

/-- map::operator[] insertion into unapplied_transactions keyed by signed_id:
last writer wins. -/
def unappliedInsert (m : List (Nat × TrxMeta)) (t : TrxMeta) : List (Nat × TrxMeta) :=
  m.filter (fun e => e.1 != t.signed_id) ++ [(t.signed_id, t)]

/-- map::erase from unapplied_transactions. -/
def unappliedErase (m : List (Nat × TrxMeta)) (k : Nat) : List (Nat × TrxMeta) :=
  m.filter (fun e => e.1 != k)

/-- map::find in unapplied_transactions. -/
def unappliedLookup (m : List (Nat × TrxMeta)) (k : Nat) : Option TrxMeta :=
  (m.find? (fun e => e.1 == k)).map (fun e => e.2)

/-- fc::seconds(n) in microseconds. -/
def fcSeconds (n : Nat) : Nat := n * 1000000

/-- time_point(trx.expiration): seconds to microseconds. -/
def secToTimePoint (s : Nat) : Nat := s * 1000000

/-- controller::pending_block_time: asserts a pending block exists and
returns its timestamp. -/
def pending_block_time (c : Controller) : Outcome Nat :=
  match c.pending with
  | none => .threw .noPendingState
  | some p => .ok p.blockState.header.timestamp

/-- controller::validate_expiration: asserts
time_point(trx.expiration) ≥ pending_block_time() (expired_tx_exception) and
time_point(trx.expiration) ≤ pending_block_time() +
fc::seconds(max_transaction_lifetime) (tx_exp_too_far_exception). -/
def validate_expiration (c : Controller) (trx : Transaction) : Outcome Unit :=
  match pending_block_time c with
  | .threw e => .threw e
  | .ok pbt =>
    -- EVT_ASSERT(time_point(trx.expiration) >= pending_block_time(), expired_tx_exception, ...)
    if pbt ≤ secToTimePoint trx.expiration then
      -- EVT_ASSERT(time_point(trx.expiration) <= pending_block_time() + fc::seconds(...), tx_exp_too_far_exception, ...)
      if secToTimePoint trx.expiration ≤ pbt + fcSeconds c.db.current.gpo.max_transaction_lifetime then
        .ok ()
      else
        .threw .txExpTooFar
    else
      .threw .expiredTx

/-- The in-effect schedule set_proposed_producers compares against: the
pending schedule of the pending block state when nonempty, the active
schedule otherwise. -/
def inEffectSchedule (p : PendingState) : ProducerSchedule :=
  if p.blockState.pendingSchedule.producers.length = 0 then
    p.blockState.activeSchedule
  else
    p.blockState.pendingSchedule

/-- The part of controller::set_proposed_producers after its two early
returns: reads my->pending->_pending_block_state (an empty-optional
dereference when no pending state exists, modelled as none), computes the
new version from the in-effect schedule, and records the proposal in the
global property object. -/
def set_proposed_producers_tail (producers : List Nat) (c : Controller) :
    Option (Bool × Controller) :=
  match c.pending with
  | none => none
  | some p =>
    if producers = (inEffectSchedule p).producers then
      -- the producer schedule would not change
      some (false, c)
    else
      some (true, { c with db := { c.db with current := { c.db.current with gpo :=
        { proposed_schedule_block_num := some (c.head.blockNum + 1)
          proposed_schedule := { version := (inEffectSchedule p).version + 1
                                 producers := producers }
          max_transaction_lifetime := c.db.current.gpo.max_transaction_lifetime } } } })

/-- controller::set_proposed_producers.  Returns none exactly when the C++
dereferences the empty optional my->pending (undefined behaviour); otherwise
some (returned bool, updated controller). -/
def set_proposed_producers (producers : List Nat) (c : Controller) : Option (Bool × Controller) :=
  match c.db.current.gpo.proposed_schedule_block_num with
  | some n =>
    if n ≠ c.head.blockNum + 1 then
      -- there is already a proposed schedule set in a previous block, wait for it to become pending
      some (false, c)
    else if producers = c.db.current.gpo.proposed_schedule.producers then
      -- the proposed producer schedule does not change
      some (false, c)
    else
      set_proposed_producers_tail producers c
  | none => set_proposed_producers_tail producers c

/-- controller_impl::failure_is_subjective: only the deadline exception is a
subjective failure (the source compares the exception code with
deadline_exception::code_value). -/
def failure_is_subjective (e : ChainError) : Bool :=
  match e with
  | .deadlineException => true
  | _ => false

/-- controller_impl::make_block_restore_point: the sizes of
block.transactions, pending.trxs and pending._actions captured for the
scoped-exit guard. -/
structure BlockRestorePoint where
  origBlockTransactionsSize : Nat
  origStateTransactionsSize : Nat
  origStateActionsSize : Nat
  deriving DecidableEq, Repr

def make_block_restore_point (p : PendingState) : BlockRestorePoint :=
  { origBlockTransactionsSize := p.blockState.block.transactions.length
    origStateTransactionsSize := p.blockState.trxs.length
    origStateActionsSize := p.actions.length }

/-- The callback captured by the scoped-exit guard of
make_block_restore_point: resize the three lists back to the captured sizes.
The guard only ever fires while the lists are at least their captured sizes
(they only grow between installation and firing), where resize coincides with
List.take. -/
def BlockRestorePoint.runRestore (r : BlockRestorePoint) (p : PendingState) : PendingState :=
  { p with
    blockState := { p.blockState with
      block := { p.blockState.block with
        transactions := p.blockState.block.transactions.take r.origBlockTransactionsSize }
      trxs := p.blockState.trxs.take r.origStateTransactionsSize }
    actions := p.actions.take r.origStateActionsSize }

/-- The default-constructed fc::time_point: zero microseconds. -/
def timePointMin : Nat := 0

/-- fc::time_point::maximum() in microseconds. -/
def timePointMaximum : Nat := 4611686018427387903

/-- controller_impl::push_transaction.  The leading FC_ASSERT rejects an
uninitialized deadline before anything else.  The inner try captures fc
exceptions into the trace (ExecResult.fail); the trailing subjective test
erases the metadata from unapplied_transactions exactly on objective
failures.  ExecResult.fatal models a non-fc exception, which the inner catch
does not capture and FC_CAPTURE_AND_RETHROW propagates.  An absent pending
state would be an invalid dereference in the source; it is modelled as a
distinguished thrown error. -/
def push_transaction (env : Env) (trx : TrxMeta) (deadline : Nat) (implicit : Bool)
    (c : Controller) : Outcome TransactionTrace × Controller :=
  if deadline = timePointMin then
    (.threw .deadlineUninitialized, c)
  else
    match c.pending with
    | none => (.threw .noPendingState, c)
    | some p =>
      if !implicit
          && !(trx.trx.actions.all (fun act => env.satisfied c.tokenDb.current trx.trx act)) then
        -- EVT_ASSERT(checker.satisfied(act), tx_missing_sigs, ...) raises an fc
        -- exception which the inner catch captures; tx_missing_sigs is objective,
        -- so the trailing test erases the entry.
        (.ok { receipt := none, except := some .txMissingSigs },
          { c with unapplied := unappliedErase c.unapplied trx.signed_id })
      else
        match env.exec trx.trx deadline c.db.current c.tokenDb.current with
        | .fatal db1 tok1 e =>
          (.threw e,
            { c with db := { c.db with current := db1 }, tokenDb := { c.tokenDb with current := tok1 } })
        | .fail db1 tok1 e =>
          let c1 := { c with db := { c.db with current := db1 }
                             tokenDb := { c.tokenDb with current := tok1 } }
          if failure_is_subjective e then
            (.ok { receipt := none, except := some e }, c1)
          else
            (.ok { receipt := none, except := some e },
              { c1 with unapplied := unappliedErase c1.unapplied trx.signed_id })
        | .okr db1 tok1 executed =>
          let c1 := { c with db := { c.db with current := db1 }
                             tokenDb := { c.tokenDb with current := tok1 } }
          let _restore := make_block_restore_point p
          -- nothing between the restore point and restore.cancel() can raise a
          -- captured exception (emit swallows subscriber errors), so the success
          -- path always cancels the guard and the appended entries remain
          let receipt : TransactionReceipt := { status := .executed, trx := trx.trx }
          let p1 :=
            if implicit then
              { p with actions := p.actions ++ executed }
            else
              { blockState := { p.blockState with
                  block := { p.blockState.block with
                    transactions := p.blockState.block.transactions ++ [receipt] }
                  trxs := p.blockState.trxs ++ [{ trx with accepted := true }] }
                actions := p.actions ++ executed }
          let events1 := c.events
            ++ (if trx.accepted then [] else [Event.acceptedTransaction trx.signed_id])
            ++ [Event.appliedTransaction trx.id]
          let unapplied1 :=
            if implicit then c.unapplied else unappliedErase c.unapplied trx.signed_id
          (.ok { receipt := some { status := .executed }, except := none },
            { c1 with pending := some p1, events := events1, unapplied := unapplied1 })

/-- Modelled from the spec: block_header_state generation - the fresh pending
block state derived from head at the given timestamp. -/
def BlockState.generate (head : BlockState) (when : Nat) : BlockState :=
  let hdr : BlockHeader :=
    { previous := head.id
      timestamp := when
      confirmed := 1
      actionMroot := 0
      transactionMroot := 0
      scheduleVersion := head.activeSchedule.version
      producerSignature := 0 }
  { id := 0
    blockNum := head.blockNum + 1
    header := hdr
    block := { header := hdr, transactions := [], blockExtensions := 0 }
    activeSchedule := head.activeSchedule
    pendingSchedule := head.pendingSchedule
    pendingScheduleLibNum := head.pendingScheduleLibNum
    dposIrreversibleBlocknum := head.dposIrreversibleBlocknum
    bftIrreversibleBlocknum := head.bftIrreversibleBlocknum
    inCurrentChain := false
    validated := false
    trxs := [] }

/-- Modelled from the spec: set_confirmed records the confirmation count in
the header. -/
def BlockState.set_confirmed (bs : BlockState) (n : Nat) : BlockState :=
  { bs with header := { bs.header with confirmed := n } }

/-- Modelled from the spec: maybe_promote_pending promotes the pending
schedule to active when it is nonempty and the block that set it has become
DPoS-irreversible; returns the updated state and whether promotion
happened. -/
def BlockState.maybe_promote_pending (bs : BlockState) : BlockState × Bool :=
  if bs.pendingSchedule.producers ≠ [] ∧ bs.pendingScheduleLibNum ≤ bs.dposIrreversibleBlocknum then
    ({ bs with activeSchedule := bs.pendingSchedule
               pendingSchedule := { bs.pendingSchedule with producers := [] } }, true)
  else
    (bs, false)

/-- Modelled from the spec: set_new_producers moves a schedule into the
pending schedule and records the block that set it (the header new-producers
field is outside this model). -/
def BlockState.set_new_producers (bs : BlockState) (sch : ProducerSchedule) : BlockState :=
  { bs with pendingSchedule := sch, pendingScheduleLibNum := bs.blockNum }

/-- The condition of controller_impl::start_block under which the proposed
schedule is promoted to pending: a proposal exists, its block is
DPoS-irreversible, the pending schedule is empty, and the pending schedule
was not just promoted to active. -/
def shouldPromoteProposed (gpo : Gpo) (bs : BlockState) (wasPendingPromoted : Bool) : Bool :=
  (match gpo.proposed_schedule_block_num with
   | some n => decide (n ≤ bs.dposIrreversibleBlocknum)
   | none => false)
  && bs.pendingSchedule.producers.isEmpty
  && !wasPendingPromoted

/-- controller_impl::clear_expired_input_transactions: remove every
deduplication entry whose expiration is strictly before the pending block
time. -/
def clearExpiredInputTransactions (now : Nat) (v : DbVal) : DbVal :=
  { v with dedup := v.dedup.filter (fun e => ¬ (now > e.expiration)) }

/-- controller_impl::start_block.  Asserts there is no pending state and that
the database revision equals the head block number; opens an undo session on
the state store and a token savepoint tagged with the pre-start revision;
builds the pending block state from head; promotes the proposed schedule to
pending when shouldPromoteProposed holds, clearing the proposal; clears
expired deduplication entries.  The guard_pending scoped exit never fires on
the success path. -/
def start_block (when : Nat) (confirmBlockCount : Nat) (c : Controller) :
    Outcome Unit × Controller :=
  if c.pending.isSome then
    (.threw .pendingAlreadyExists, c)
  else if c.db.revision ≠ c.head.blockNum then
    (.threw .revisionMismatch, c)
  else
    let db1 : Database := { c.db with undoStack := c.db.current :: c.db.undoStack }
    let tok1 := c.tokenDb.new_savepoint c.db.revision
    let bs0 := (BlockState.generate c.head when).set_confirmed confirmBlockCount
    let bs0 := { bs0 with inCurrentChain := true }
    let pp := bs0.maybe_promote_pending
    let gpo := db1.current.gpo
    let promote := shouldPromoteProposed gpo pp.1 pp.2
    let db2 :=
      if promote then
        { db1 with current := { db1.current with gpo :=
            { proposed_schedule_block_num := none
              proposed_schedule := { version := 0, producers := [] }
              max_transaction_lifetime := gpo.max_transaction_lifetime } } }
      else
        db1
    let bs1 := if promote then pp.1.set_new_producers gpo.proposed_schedule else pp.1
    let db3 := { db2 with current := clearExpiredInputTransactions bs1.header.timestamp db2.current }
    (.ok (), { c with db := db3, tokenDb := tok1,
                      pending := some { blockState := bs1, actions := [] } })

/-- controller_impl::abort_block: move every pending transaction into
unapplied_transactions and drop the pending state; dropping rolls both open
sessions back (the session destructors restore the snapshots taken at
start_block). -/
def abort_block (c : Controller) : Controller :=
  match c.pending with
  | none => c
  | some p =>
    { c with
      unapplied := p.blockState.trxs.foldl unappliedInsert c.unapplied
      pending := none
      db := c.db.undo
      tokenDb := c.tokenDb.rollback_to_latest_savepoint }

/-- The digest of an action receipt for the action merkle root. -/
def actionReceiptDigest (a : Nat) : Nat := a

/-- The digest of a transaction receipt for the transaction merkle root. -/
def transactionReceiptDigest (r : TransactionReceipt) : Nat :=
  hashCombine (match r.status with | .executed => 0 | .softFail => 1 | .hardFail => 2) r.trx.trxId

/-- Modelled from the spec: the merkle-root oracle over a digest list. -/
def merkle (l : List Nat) : Nat := l.foldl hashCombine 0

/-- Modelled from the spec: the block-header digest giving the block id. -/
def headerId (h : BlockHeader) : Nat :=
  hashCombine h.previous
    (hashCombine h.timestamp
      (hashCombine h.confirmed
        (hashCombine h.actionMroot (hashCombine h.transactionMroot h.scheduleVersion))))

/-- controller_impl::create_block_summary: refresh the block-summary ring
slot block_num mod 65536 with the new id. -/
def create_block_summary (id : Nat) (blockNum : Nat) (v : DbVal) : DbVal :=
  { v with summaries := (v.summaries.filter (fun s => s.1 != blockNum % 65536))
                          ++ [(blockNum % 65536, id)] }

/-- controller_impl::finalize_block: asserts a pending block exists, computes
the action and transaction merkle roots, sets the block id and refreshes the
block summary. -/
def finalize_block (c : Controller) : Outcome Unit × Controller :=
  match c.pending with
  | none => (.threw .noPendingState, c)
  | some p =>
    let hdr1 := { p.blockState.header with
      actionMroot := merkle (p.actions.map actionReceiptDigest)
      transactionMroot := merkle (p.blockState.block.transactions.map transactionReceiptDigest) }
    let bs1 := { p.blockState with header := hdr1, id := headerId hdr1 }
    let db1 := { c.db with current := create_block_summary bs1.id bs1.blockNum c.db.current }
    (.ok (), { c with db := db1, pending := some { p with blockState := bs1 } })

/-- controller_impl::sign_block: install the signature produced by the
callback (modelled as the signature value itself) and copy the finalized
header into the block. -/
def sign_block (signature : Nat) (c : Controller) : Outcome Unit × Controller :=
  match c.pending with
  | none => (.threw .noPendingState, c)
  | some p =>
    let hdr1 := { p.blockState.header with producerSignature := signature }
    let bs1 := { p.blockState with header := hdr1
                                   block := { p.blockState.block with header := hdr1 } }
    (.ok (), { c with pending := some { p with blockState := bs1 } })

/-- controller_impl::commit_block: optionally add the pending block state to
the fork database (production path), fire accepted_block, push both sessions
(their changes stay, the undo state and savepoint are retained for later
undo), clear pending.  log_irreversible_blocks is a commented-out no-op in
the source. -/
def commit_block (addToForkDb : Bool) (c : Controller) : Outcome Unit × Controller :=
  match c.pending with
  | none => (.threw .noPendingState, c)
  | some p =>
    let step1 : Outcome Unit × Controller :=
      if addToForkDb then
        let bs1 := { p.blockState with validated := true }
        let fdb := c.forkDb.addState bs1
        let c1 := { c with forkDb := fdb
                           events := c.events ++ [Event.acceptedBlockHeader bs1.id]
                           pending := some { p with blockState := bs1 } }
        match fdb.headBs with
        | none => (.threw .commitNotHead, c1)
        | some h =>
          if h.id = bs1.id then (.ok (), { c1 with head := h })
          else (.threw .commitNotHead, c1)
      else
        (.ok (), c)
    match step1 with
    | (.threw e, c1) => (.threw e, c1)
    | (.ok _, c1) =>
      match c1.pending with
      | none => (.threw .noPendingState, c1)
      | some p1 =>
        (.ok (), { c1 with events := c1.events ++ [Event.acceptedBlock p1.blockState.id]
                           pending := none })

/-- The loop body of apply_block over the block's transaction receipts: wrap
each receipt's transaction in fresh metadata and push it with an unbounded
deadline; the returned trace is ignored (the source discards it, captured
exceptions included). -/
def applyBlockTrxs (env : Env) (receipts : List TransactionReceipt) (c : Controller) :
    Outcome Unit × Controller :=
  match receipts with
  | [] => (.ok (), c)
  | r :: rest =>
    match push_transaction env (mkTrxMeta r.trx) timePointMaximum false c with
    | (.threw e, c1) => (.threw e, c1)
    | (.ok _, c1) => applyBlockTrxs env rest c1

/-- The body of controller_impl::apply_block inside its inner try: assert no
block extensions, start the block, push every receipt's transaction, finalize,
sign with the block's embedded producer signature, and commit without
re-adding to the fork database. -/
def applyBlockBody (env : Env) (b : SignedBlock) (c : Controller) :
    Outcome Unit × Controller :=
  if b.blockExtensions ≠ 0 then
    (.threw .unsupportedExtensions, c)
  else
    match start_block b.header.timestamp b.header.confirmed c with
    | (.threw e, c1) => (.threw e, c1)
    | (.ok _, c1) =>
      match applyBlockTrxs env b.transactions c1 with
      | (.threw e, c2) => (.threw e, c2)
      | (.ok _, c2) =>
        match finalize_block c2 with
        | (.threw e, c3) => (.threw e, c3)
        | (.ok _, c3) =>
          match sign_block b.header.producerSignature c3 with
          | (.threw e, c4) => (.threw e, c4)
          | (.ok _, c4) => commit_block false c4

/-- controller_impl::apply_block: on any fc exception from the body, abort
the pending block and rethrow. -/
def apply_block (env : Env) (b : SignedBlock) (c : Controller) :
    Outcome Unit × Controller :=
  match applyBlockBody env b c with
  | (.threw e, c1) => (.threw e, abort_block c1)
  | (.ok _, c1) => (.ok (), c1)

/-- controller_impl::pop_block: assert the parent of head is in the fork
database, move head's transactions into unapplied_transactions, step head to
the parent, undo one database revision and roll the token store back to its
latest savepoint. -/
def pop_block (c : Controller) : Outcome Unit × Controller :=
  match c.forkDb.get_block c.head.header.previous with
  | none => (.threw .popBeyondIrreversible, c)
  | some prev =>
    (.ok (), { c with
      unapplied := c.head.trxs.foldl unappliedInsert c.unapplied
      head := prev
      db := c.db.undo
      tokenDb := c.tokenDb.rollback_to_latest_savepoint })

/-- Modelled from the spec: fork_database::fetch_branch_from - walk the two
ids back to their common ancestor, returning the two disjoint branches,
newest first, the common ancestor excluded.  The fuel bounds the walk; none
models an unlinkable pair or exhausted fuel. -/
def fetchBranchFrom (fuel : Nat) (f : ForkDb) (aId bId : Nat) :
    Option (List BlockState × List BlockState) :=
  match fuel with
  | 0 => none
  | fuel + 1 =>
    if aId = bId then
      some ([], [])
    else
      match f.get_block aId, f.get_block bId with
      | some a, some b =>
        if b.blockNum < a.blockNum then
          (fetchBranchFrom fuel f a.header.previous bId).map (fun p => (a :: p.1, p.2))
        else if a.blockNum < b.blockNum then
          (fetchBranchFrom fuel f aId b.header.previous).map (fun p => (p.1, b :: p.2))
        else
          (fetchBranchFrom fuel f a.header.previous b.header.previous).map
            (fun p => (a :: p.1, b :: p.2))
      | _, _ => none

/-- The first loop of the reorg path of maybe_switch_forks: mark each block
of the old branch as no longer in the current chain and pop it. -/
def popOldBranch (branch : List BlockState) (c : Controller) : Outcome Unit × Controller :=
  match branch with
  | [] => (.ok (), c)
  | bs :: rest =>
    let c1 := { c with forkDb := c.forkDb.mark_in_current_chain bs.id false }
    match pop_block c1 with
    | (.threw e, c2) => (.threw e, c2)
    | (.ok _, c2) => popOldBranch rest c2

/-- The erroneous recovery loop of maybe_switch_forks.  After the
invalidation while-loop has advanced ritr to branches.first.rend(), the
source iterates from (ritr + 1).base() - which is branches.first.begin() - 1,
before the start of the vector - while comparing against
branches.second.end(), an iterator into a DIFFERENT vector.  The comparison
of iterators into two distinct vectors never succeeds, so the loop leaves
only via the exception thrown by pop_block once the chain cannot be popped
further (the out-of-bounds dereference passed to mark_in_current_chain reads
unmapped garbage and is modelled as having no effect).  The fuel is a model
artifact: modelFuelExhausted is never reached when the fuel exceeds the
number of poppable blocks. -/
def popUntilThrow (fuel : Nat) (c : Controller) : ChainError × Controller :=
  match fuel with
  | 0 => (.modelFuelExhausted, c)
  | fuel + 1 =>
    match pop_block c with
    | (.threw e, c1) => (e, c1)
    | (.ok _, c1) => popUntilThrow fuel c1

/-- The replay loop of the reorg path of maybe_switch_forks, given the new
branch oldest first.  On success of one block: step head to it and mark it in
the current chain.  On an exception: mark the failed block and every newer
block of the branch invalid, then enter the erroneous pop loop (the source's
subsequent re-application of the old branch and rethrow of the stored
exception are unreachable, because that loop never exits normally). -/
def applyNewBranch (env : Env) (fuel : Nat) (branch : List BlockState) (c : Controller) :
    Outcome Unit × Controller :=
  match branch with
  | [] => (.ok (), c)
  | bs :: rest =>
    match apply_block env bs.block c with
    | (.ok _, c1) =>
      let c2 := { c1 with head := bs, forkDb := c1.forkDb.mark_in_current_chain bs.id true }
      applyNewBranch env fuel rest c2
    | (.threw _, c1) =>
      let fdb := (bs :: rest).foldl (fun f x => f.set_validity x.id false) c1.forkDb
      let r := popUntilThrow fuel { c1 with forkDb := fdb }
      (.threw r.1, r.2)

/-- controller_impl::maybe_switch_forks.  Fast path when the fork-database
head extends the current head; no-op when it equals it; otherwise the reorg:
pop the old branch, assert the chains stayed linked, and replay the new
branch (oldest first), recovering - erroneously, see applyNewBranch - when a
replay throws.  The fuel bounds the spec-modelled branch walk and the
erroneous pop loop. -/
def maybe_switch_forks (env : Env) (fuel : Nat) (c : Controller) :
    Outcome Unit × Controller :=
  match c.forkDb.headBs with
  | none => (.threw .emptyBranch, c)
  | some newHead =>
    if newHead.header.previous = c.head.id then
      match apply_block env newHead.block c with
      | (.ok _, c1) =>
        (.ok (), { c1 with
          forkDb := (c1.forkDb.mark_in_current_chain newHead.id true).set_validity newHead.id true
          head := newHead })
      | (.threw e, c1) =>
        -- set_validity false removes new_head from the fork database index
        (.threw e, { c1 with forkDb := c1.forkDb.set_validity newHead.id false })
    else if newHead.id ≠ c.head.id then
      match fetchBranchFrom fuel c.forkDb newHead.id c.head.id with
      | none => (.threw .unlinkableBranch, c)
      | some branches =>
        match popOldBranch branches.2 c with
        | (.threw e, c1) => (.threw e, c1)
        | (.ok _, c1) =>
          match branches.2.getLast? with
          | none =>
            -- branches.second.back() on an empty vector is out of bounds in the
            -- source; never reached for a genuine reorg
            (.threw .emptyBranch, c1)
          | some lastOld =>
            if c1.head.id ≠ lastOld.header.previous then
              (.threw .forkSwitchDesync, c1)
            else
              applyNewBranch env fuel branches.1.reverse c1
    else
      (.ok (), c)

/-- controller_impl::on_irreversible: append to the block log exactly when
the block directly extends the log head (asserting linkage), warn without
appending on a gap, then fire irreversible_block, commit the state store at
the block number and pop the token savepoints tagged up to it. -/
def on_irreversible (s : BlockState) (c : Controller) : Outcome Unit × Controller :=
  match c.blog.getLast? with
  | none => (.threw .noBlogHead, c)
  | some logHead =>
    let finish : Bool → Outcome Unit × Controller := fun doAppend =>
      (.ok (), { c with
        blog := if doAppend then c.blog ++ [blockStateLogEntry s] else c.blog
        events := c.events ++ [Event.irreversibleBlock s.blockNum]
        db := c.db.commit s.blockNum
        tokenDb := c.tokenDb.pop_savepoints s.blockNum })
    if s.blockNum - 1 = logHead.blockNum then
      if s.block.header.previous ≠ logHead.id then
        (.threw .irreversibleLinkMismatch, c)
      else
        finish true
    else if logHead.blockNum < s.blockNum - 1 then
      -- dead inner check of the source: s->block_num == log_head->block_num()
      -- is impossible under s->block_num - 1 > log_head->block_num()
      if s.blockNum = logHead.blockNum then
        if s.id ≠ logHead.id then (.threw .irreversibleIdMismatch, c) else finish false
      else
        finish false
    else
      finish false

/-! ### Concrete-state templates used by witnesses and counterexamples -/

/-- A header builder for concrete states. -/
def mkHeader (prev ts : Nat) : BlockHeader :=
  { previous := prev, timestamp := ts, confirmed := 0, actionMroot := 0,
    transactionMroot := 0, scheduleVersion := 0, producerSignature := 0 }

/-- A neutral block state for building concrete states. -/
def bsTemplate : BlockState :=
  { id := 0, blockNum := 0, header := mkHeader 0 0,
    block := { header := mkHeader 0 0, transactions := [], blockExtensions := 0 },
    activeSchedule := { version := 0, producers := [] },
    pendingSchedule := { version := 0, producers := [] },
    pendingScheduleLibNum := 0, dposIrreversibleBlocknum := 0,
    bftIrreversibleBlocknum := 0, inCurrentChain := false, validated := false, trxs := [] }

/-- Neutral database contents for building concrete states. -/
def dbValTemplate : DbVal :=
  { gpo := { proposed_schedule_block_num := none,
             proposed_schedule := { version := 0, producers := [] },
             max_transaction_lifetime := 3600 },
    dedup := [], summaries := [], rest := 0 }

/-- A neutral controller for building concrete states. -/
def ctrlTemplate : Controller :=
  { db := { current := dbValTemplate, undoStack := [], committedRev := 0 },
    tokenDb := { current := 0, savepoints := [] },
    pending := none, head := bsTemplate, forkDb := { blocks := [] },
    unapplied := [], blog := [], events := [] }

/-! ### C8: validate_expiration bounds -/

/-- C8: validate_expiration succeeds exactly when
pending_block_time() ≤ trx.expiration ≤ pending_block_time() +
max_transaction_lifetime, raises expired_tx_exception exactly when the
expiration is below the lower bound, and tx_exp_too_far_exception exactly
when it is above the upper bound. -/
theorem c8_validate_expiration_bounds (c : Controller) (trx : Transaction) (p : PendingState)
    (h : c.pending = some p) :
    (validate_expiration c trx = .ok () ↔
      p.blockState.header.timestamp ≤ secToTimePoint trx.expiration ∧
      secToTimePoint trx.expiration ≤
        p.blockState.header.timestamp + fcSeconds c.db.current.gpo.max_transaction_lifetime) ∧
    (validate_expiration c trx = .threw .expiredTx ↔
      secToTimePoint trx.expiration < p.blockState.header.timestamp) ∧
    (validate_expiration c trx = .threw .txExpTooFar ↔
      p.blockState.header.timestamp + fcSeconds c.db.current.gpo.max_transaction_lifetime <
        secToTimePoint trx.expiration) := by
  simp only [validate_expiration, pending_block_time, h]
  split_ifs with h1 h2 <;>
    refine ⟨⟨fun hx => ?_, fun hx => ?_⟩, ⟨fun hx => ?_, fun hx => ?_⟩,
      ⟨fun hx => ?_, fun hx => ?_⟩⟩ <;>
    first
      | rfl
      | omega
      | simp at hx

/-- C8 witness: a concrete in-range expiration is accepted and the two
out-of-range directions raise the two exceptions. -/
theorem c8_validate_expiration_bounds_witness :
    ({ ctrlTemplate with
        pending := some { blockState := { bsTemplate with header := mkHeader 0 5000000 },
                          actions := [] } } : Controller).pending =
      some { blockState := { bsTemplate with header := mkHeader 0 5000000 }, actions := [] } ∧
    validate_expiration
      { ctrlTemplate with
        pending := some { blockState := { bsTemplate with header := mkHeader 0 5000000 },
                          actions := [] } }
      { expiration := 6, actions := [], signatures := [] } = .ok () := by
  refine ⟨rfl, ?_⟩
  have h := (c8_validate_expiration_bounds
    { ctrlTemplate with
      pending := some { blockState := { bsTemplate with header := mkHeader 0 5000000 },
                        actions := [] } }
    { expiration := 6, actions := [], signatures := [] }
    { blockState := { bsTemplate with header := mkHeader 0 5000000 }, actions := [] } rfl).1
  exact h.mpr (by decide)

/-! ### C9: push_transaction with an uninitialized deadline -/

/-- C9: for every transaction, in both implicit and input modes, calling
push_transaction with the default-constructed deadline fails immediately with
the leading assertion and leaves the controller - in particular the pending
block - untouched. -/
theorem c9_uninitialized_deadline (env : Env) (trx : TrxMeta) (implicit : Bool)
    (c : Controller) :
    push_transaction env trx timePointMin implicit c = (.threw .deadlineUninitialized, c) := by
  simp [push_transaction]

/-! ### C7: set_proposed_producers success condition -/

/-- A controller with a proposal already recorded for head+1 whose producer
list equals the one being proposed again but differs from the active
schedule. -/
def c7Controller : Controller :=
  { ctrlTemplate with
    head := { bsTemplate with id := 50, blockNum := 5 },
    db := { ctrlTemplate.db with current := { dbValTemplate with gpo :=
      { proposed_schedule_block_num := some 6,
        proposed_schedule := { version := 4, producers := [1, 2] },
        max_transaction_lifetime := 3600 } } },
    pending := some
      { blockState :=
          { bsTemplate with
            blockNum := 6,
            activeSchedule := { version := 4, producers := [3] } },
        actions := [] } }

/-- C7 counterexample: with a proposal already pending for exactly head+1 and
a proposed list that differs from the in-effect (active) schedule - the two
conditions the claim states - set_proposed_producers nonetheless returns
false and changes nothing, because the list equals the already-proposed
one. -/
theorem c7_counterexample :
    c7Controller.db.current.gpo.proposed_schedule_block_num =
      some (c7Controller.head.blockNum + 1) ∧
    c7Controller.pending.map (fun p => p.blockState.pendingSchedule.producers) = some [] ∧
    c7Controller.pending.map (fun p => p.blockState.activeSchedule.producers) = some [3] ∧
    [1, 2] ≠ [3] ∧
    set_proposed_producers [1, 2] c7Controller = some (false, c7Controller) := by
  refine ⟨rfl, rfl, rfl, by decide, by decide⟩

/-- C7 amended: set_proposed_producers returns true - recording the proposal
for head+1 with a version one above the in-effect schedule's - iff no
proposal is pending for a block different from head+1, the list differs from
the in-effect schedule, and, when a proposal for head+1 already exists, the
list also differs from that proposed list; otherwise it returns false and
changes nothing. -/
theorem c7_amended (producers : List Nat) (c : Controller) (p : PendingState)
    (h : c.pending = some p) :
    let success := (c.db.current.gpo.proposed_schedule_block_num = none ∨
        (c.db.current.gpo.proposed_schedule_block_num = some (c.head.blockNum + 1) ∧
          producers ≠ c.db.current.gpo.proposed_schedule.producers)) ∧
      producers ≠ (inEffectSchedule p).producers
    (success → set_proposed_producers producers c =
      some (true, { c with db := { c.db with current := { c.db.current with gpo :=
        { proposed_schedule_block_num := some (c.head.blockNum + 1)
          proposed_schedule := { version := (inEffectSchedule p).version + 1
                                 producers := producers }
          max_transaction_lifetime := c.db.current.gpo.max_transaction_lifetime } } } })) ∧
    (¬ success → set_proposed_producers producers c = some (false, c)) := by
  intro success
  have htail : set_proposed_producers_tail producers c =
      if producers = (inEffectSchedule p).producers then some (false, c)
      else some (true, { c with db := { c.db with current := { c.db.current with gpo :=
        { proposed_schedule_block_num := some (c.head.blockNum + 1)
          proposed_schedule := { version := (inEffectSchedule p).version + 1
                                 producers := producers }
          max_transaction_lifetime := c.db.current.gpo.max_transaction_lifetime } } } }) := by
    simp only [set_proposed_producers_tail, h]
  constructor
  · rintro ⟨hcase, hne⟩
    rcases hcase with hnone | ⟨hsome, hnep⟩
    · simp only [set_proposed_producers, hnone, htail, if_neg hne]
    · have hrefl : ¬(c.head.blockNum + 1 ≠ c.head.blockNum + 1) := fun hh => hh rfl
      simp only [set_proposed_producers, hsome, if_neg hrefl, if_neg hnep,
        htail, if_neg hne]
  · intro hs
    rcases hn : c.db.current.gpo.proposed_schedule_block_num with _ | n
    · have hp3 : producers = (inEffectSchedule p).producers := by
        by_contra hne
        exact hs ⟨Or.inl hn, hne⟩
      simp only [set_proposed_producers, hn, htail, if_pos hp3]
    · by_cases hc : n = c.head.blockNum + 1
      · by_cases hpp : producers = c.db.current.gpo.proposed_schedule.producers
        · subst hc
          have hrefl : ¬(c.head.blockNum + 1 ≠ c.head.blockNum + 1) := fun hh => hh rfl
          simp only [set_proposed_producers, hn, if_neg hrefl, if_pos hpp]
        · have hp3 : producers = (inEffectSchedule p).producers := by
            by_contra hne
            exact hs ⟨Or.inr ⟨by rw [hn, hc], hpp⟩, hne⟩
          subst hc
          have hrefl : ¬(c.head.blockNum + 1 ≠ c.head.blockNum + 1) := fun hh => hh rfl
          simp only [set_proposed_producers, hn, if_neg hrefl, if_neg hpp,
            htail, if_pos hp3]
      · simp only [set_proposed_producers, hn, if_pos hc]

/-- A controller with no recorded proposal, a pending block state whose
pending schedule is empty and whose active schedule is version 2 with
producer 3. -/
def c7WitnessCtl : Controller :=
  { ctrlTemplate with
    head := { bsTemplate with id := 60, blockNum := 8 },
    pending := some
      { blockState :=
          { bsTemplate with
            blockNum := 9,
            activeSchedule := { version := 2, producers := [3] } },
        actions := [] } }

/-- C7 witness: at a concrete state satisfying the amended success condition,
set_proposed_producers records the proposal for head+1 with the bumped
version and returns true. -/
theorem c7_amended_witness :
    c7WitnessCtl.pending = some
      { blockState :=
          { bsTemplate with
            blockNum := 9,
            activeSchedule := { version := 2, producers := [3] } },
        actions := [] } ∧
    set_proposed_producers [7] c7WitnessCtl =
      some (true, { c7WitnessCtl with db := { c7WitnessCtl.db with current :=
        { c7WitnessCtl.db.current with gpo :=
          { proposed_schedule_block_num := some 9,
            proposed_schedule := { version := 3, producers := [7] },
            max_transaction_lifetime :=
              c7WitnessCtl.db.current.gpo.max_transaction_lifetime } } } }) := by
  refine ⟨rfl, ?_⟩
  exact (c7_amended [7] c7WitnessCtl
    { blockState :=
        { bsTemplate with
          blockNum := 9,
          activeSchedule := { version := 2, producers := [3] } },
      actions := [] } rfl).1 ⟨Or.inl rfl, by decide⟩

/-! ### C10: set_proposed_producers and the pending-state precondition -/

/-- A controller with no pending state and a proposal recorded for a block
different from head+1. -/
def c10Controller : Controller :=
  { ctrlTemplate with
    head := { bsTemplate with id := 50, blockNum := 5 },
    db := { ctrlTemplate.db with current := { dbValTemplate with gpo :=
      { proposed_schedule_block_num := some 4,
        proposed_schedule := { version := 1, producers := [9] },
        max_transaction_lifetime := 3600 } } } }

/-- C10 counterexample: called with no pending state but with a proposal
recorded for a block different from head+1, set_proposed_producers returns
false cleanly through its early return instead of dereferencing the empty
pending optional (the dereference is modelled as none). -/
theorem c10_counterexample :
    c10Controller.pending = none ∧
    set_proposed_producers [8] c10Controller = some (false, c10Controller) := by
  exact ⟨rfl, by decide⟩

/-- C10 amended: set_proposed_producers reads the pending block state only
after its two early returns: with a proposal recorded for a block other than
head+1, or one for head+1 with the same producer list, it returns false
without touching pending; otherwise with no pending state it dereferences an
empty optional (modelled as none), and with pending state present the
dereference is always valid. -/
theorem c10_amended (producers : List Nat) (c : Controller) :
    (∀ n, c.db.current.gpo.proposed_schedule_block_num = some n →
      (n ≠ c.head.blockNum + 1 ∨ producers = c.db.current.gpo.proposed_schedule.producers) →
      set_proposed_producers producers c = some (false, c)) ∧
    (c.pending = none →
      (c.db.current.gpo.proposed_schedule_block_num = none ∨
        (c.db.current.gpo.proposed_schedule_block_num = some (c.head.blockNum + 1) ∧
          producers ≠ c.db.current.gpo.proposed_schedule.producers)) →
      set_proposed_producers producers c = none) ∧
    (∀ p, c.pending = some p → (set_proposed_producers producers c).isSome = true) := by
  refine ⟨?_, ?_, ?_⟩
  · intro n hn hc
    rcases hc with hne | heq
    · simp only [set_proposed_producers, hn, if_pos hne]
    · by_cases hcur : n = c.head.blockNum + 1
      · subst hcur
        have hrefl : ¬(c.head.blockNum + 1 ≠ c.head.blockNum + 1) := fun hh => hh rfl
        simp only [set_proposed_producers, hn, if_neg hrefl, if_pos heq]
      · simp only [set_proposed_producers, hn, if_pos hcur]
  · intro hp hc
    have htail : set_proposed_producers_tail producers c = none := by
      simp only [set_proposed_producers_tail, hp]
    rcases hc with hnone | ⟨hsome, hnep⟩
    · simp only [set_proposed_producers, hnone, htail]
    · have hrefl : ¬(c.head.blockNum + 1 ≠ c.head.blockNum + 1) := fun hh => hh rfl
      simp only [set_proposed_producers, hsome, if_neg hrefl, if_neg hnep, htail]
  · intro p hp
    have htail : (set_proposed_producers_tail producers c).isSome = true := by
      simp only [set_proposed_producers_tail, hp]
      split <;> rfl
    rcases hn : c.db.current.gpo.proposed_schedule_block_num with _ | n
    · simpa only [set_proposed_producers, hn] using htail
    · simp only [set_proposed_producers, hn]
      split
      · rfl
      · split
        · rfl
        · exact htail

/-- A controller with no pending state and no recorded proposal: the call
reaches the pending dereference. -/
def c10CrashCtl : Controller :=
  { ctrlTemplate with head := { bsTemplate with id := 51, blockNum := 7 } }

/-- C10 witness: the early return fires without pending state at a concrete
input; with neither early return and no pending the dereference is reached
(none); and with pending state present the call returns a value. -/
theorem c10_amended_witness :
    c10Controller.pending = none ∧
    set_proposed_producers [8] c10Controller = some (false, c10Controller) ∧
    c10CrashCtl.pending = none ∧
    set_proposed_producers [8] c10CrashCtl = none ∧
    (set_proposed_producers [7] c7WitnessCtl).isSome = true := by
  refine ⟨rfl, ?_, rfl, ?_, ?_⟩
  · exact (c10_amended [8] c10Controller).1 4 rfl (Or.inl (by decide))
  · exact (c10_amended [8] c10CrashCtl).2.1 rfl (Or.inl rfl)
  · exact (c10_amended [7] c7WitnessCtl).2.2
      { blockState :=
          { bsTemplate with
            blockNum := 9,
            activeSchedule := { version := 2, producers := [3] } },
        actions := [] } rfl

/-! ### C4: push_transaction and unapplied_transactions -/

/-- After erasing a key, looking it up in unapplied_transactions yields
nothing. -/
theorem unappliedLookup_erase (m : List (Nat × TrxMeta)) (k : Nat) :
    unappliedLookup (unappliedErase m k) k = none := by
  have hfind : (unappliedErase m k).find? (fun e => e.1 == k) = none := by
    rw [List.find?_eq_none]
    intro x hx
    have := List.of_mem_filter hx
    simpa using this
  simp [unappliedLookup, hfind]

/-- C4: for an input (non-implicit) transaction whose push returns a trace,
the entry keyed by the transaction's signed_id is gone from
unapplied_transactions on success and on objective failure, the map is left
untouched exactly on subjective failure, and a failure is subjective exactly
when the captured exception is the deadline exception. -/
theorem c4_unapplied_policy (env : Env) (trx : TrxMeta) (deadline : Nat) (c : Controller)
    (tr : TransactionTrace) (c1 : Controller)
    (h : push_transaction env trx deadline false c = (.ok tr, c1)) :
    (tr.except = none → unappliedLookup c1.unapplied trx.signed_id = none) ∧
    (∀ e, tr.except = some e → failure_is_subjective e = true → c1.unapplied = c.unapplied) ∧
    (∀ e, tr.except = some e → failure_is_subjective e = false →
      unappliedLookup c1.unapplied trx.signed_id = none) ∧
    (∀ e, failure_is_subjective e = true ↔ e = ChainError.deadlineException) := by
  have hsub : ∀ e, failure_is_subjective e = true ↔ e = ChainError.deadlineException := by
    intro e
    cases e <;> simp [failure_is_subjective]
  by_cases hd : deadline = timePointMin
  · rw [push_transaction, if_pos hd] at h
    exact absurd h (by simp)
  rw [push_transaction, if_neg hd] at h
  rcases hp : c.pending with _ | p
  · rw [hp] at h
    exact absurd h (by simp)
  rw [hp] at h
  rcases hall : trx.trx.actions.all (fun act => env.satisfied c.tokenDb.current trx.trx act) with _ | _
  · -- authorization failure: objective, erased
    simp only [hall] at h
    simp at h
    obtain ⟨htr, hc1⟩ := h
    subst htr
    subst hc1
    refine ⟨?_, ?_, ?_, hsub⟩
    · intro hx
      simp at hx
    · intro e he hs
      simp only [Option.some.injEq] at he
      subst he
      simp [failure_is_subjective] at hs
    · intro e he hs
      exact unappliedLookup_erase c.unapplied trx.signed_id
  · rcases he : env.exec trx.trx deadline c.db.current c.tokenDb.current with
      ⟨db1, tok1, executed⟩ | ⟨db1, tok1, e1⟩ | ⟨db1, tok1, e1⟩
    · -- success: erased, except empty
      simp only [hall, he] at h
      simp at h
      obtain ⟨htr, hc1⟩ := h
      subst htr
      subst hc1
      refine ⟨?_, ?_, ?_, hsub⟩
      · intro _
        exact unappliedLookup_erase c.unapplied trx.signed_id
      · intro e he' hs
        simp at he'
      · intro e he' hs
        simp at he'
    · -- captured fc exception: kept iff subjective
      rcases hsb : failure_is_subjective e1 with _ | _
      · simp only [hall, he, hsb] at h
        simp at h
        obtain ⟨htr, hc1⟩ := h
        subst htr
        subst hc1
        refine ⟨?_, ?_, ?_, hsub⟩
        · intro hx
          simp at hx
        · intro e he' hs
          simp only [Option.some.injEq] at he'
          subst he'
          rw [hs] at hsb
          exact absurd hsb (by simp)
        · intro e he' hs
          exact unappliedLookup_erase c.unapplied trx.signed_id
      · simp only [hall, he, hsb] at h
        simp at h
        obtain ⟨htr, hc1⟩ := h
        subst htr
        subst hc1
        refine ⟨?_, ?_, ?_, hsub⟩
        · intro hx
          simp at hx
        · intro e he' hs
          rfl
        · intro e he' hs
          simp only [Option.some.injEq] at he'
          subst he'
          rw [hs] at hsb
          exact absurd hsb (by simp)
    · -- non-fc exception: rethrown, no trace returned
      simp only [hall, he] at h
      simp at h

/-- An environment whose transaction execution blows its deadline: a
subjective failure with no store effects. -/
def envC4 : Env :=
  { exec := fun _ _ db tok => .fail db tok .deadlineException
    satisfied := fun _ _ _ => true }

/-- A concrete input transaction for the C4 witness. -/
def trxC4 : TrxMeta := mkTrxMeta { expiration := 3, actions := [], signatures := [] }

/-- A controller with a pending block whose unapplied map holds trxC4. -/
def ctlC4 : Controller :=
  { ctrlTemplate with
    pending := some { blockState := bsTemplate, actions := [] },
    unapplied := [(trxC4.signed_id, trxC4)] }

/-- C4 witness: a concrete deadline failure keeps the transaction in
unapplied_transactions. -/
theorem c4_unapplied_policy_witness :
    (push_transaction envC4 trxC4 5 false ctlC4).2.unapplied = ctlC4.unapplied ∧
    unappliedLookup ctlC4.unapplied trxC4.signed_id = some trxC4 := by
  constructor
  · exact (c4_unapplied_policy envC4 trxC4 5 ctlC4 _ _ rfl).2.1 .deadlineException rfl rfl
  · rfl

/-! ### C3: the block-restore point -/

/-- C3: the scoped guard of make_block_restore_point truncates the three
pending-block lists back to their captured sizes (so a failed transaction
leaves zero footprint even though the outer undo session stays open): on a
push_transaction whose exception is captured the pending block is exactly as
before, and on success the guard is cancelled and the appended receipt,
metadata and action receipts remain. -/
theorem c3_block_restore_point (env : Env) (trx : TrxMeta) (deadline : Nat)
    (c : Controller) (p : PendingState) (hp : c.pending = some p)
    (tr : TransactionTrace) (c1 : Controller)
    (h : push_transaction env trx deadline false c = (.ok tr, c1)) :
    (∀ (q : PendingState) (l1 : List TransactionReceipt) (l2 : List TrxMeta) (l3 : List Nat),
      q.blockState.block.transactions = p.blockState.block.transactions ++ l1 →
      q.blockState.trxs = p.blockState.trxs ++ l2 →
      q.actions = p.actions ++ l3 →
      ((make_block_restore_point p).runRestore q).blockState.block.transactions
          = p.blockState.block.transactions ∧
      ((make_block_restore_point p).runRestore q).blockState.trxs = p.blockState.trxs ∧
      ((make_block_restore_point p).runRestore q).actions = p.actions) ∧
    (tr.except.isSome = true → c1.pending = some p) ∧
    (tr.except = none → ∃ executed,
      c1.pending = some
        { blockState := { p.blockState with
            block := { p.blockState.block with
              transactions := p.blockState.block.transactions
                ++ [{ status := .executed, trx := trx.trx }] }
            trxs := p.blockState.trxs ++ [{ trx with accepted := true }] }
          actions := p.actions ++ executed }) := by
  refine ⟨?_, ?_, ?_⟩
  · intro q l1 l2 l3 h1 h2 h3
    refine ⟨?_, ?_, ?_⟩ <;>
      simp [BlockRestorePoint.runRestore, make_block_restore_point, h1, h2, h3,
        List.take_left]
  all_goals
    by_cases hd : deadline = timePointMin
  · rw [push_transaction, if_pos hd] at h
    exact absurd h (by simp)
  case neg =>
    rw [push_transaction, if_neg hd, hp] at h
    rcases hall : trx.trx.actions.all (fun act => env.satisfied c.tokenDb.current trx.trx act)
        with _ | _
    · simp only [hall] at h
      simp at h
      obtain ⟨htr, hc1⟩ := h
      subst htr
      subst hc1
      intro _
      exact hp ▸ rfl
    · rcases he : env.exec trx.trx deadline c.db.current c.tokenDb.current with
        ⟨db1, tok1, executed⟩ | ⟨db1, tok1, e1⟩ | ⟨db1, tok1, e1⟩
      · simp only [hall, he] at h
        simp at h
        obtain ⟨htr, hc1⟩ := h
        subst htr
        subst hc1
        intro hx
        simp at hx
      · rcases hsb : failure_is_subjective e1 with _ | _ <;>
          · simp only [hall, he, hsb] at h
            simp at h
            obtain ⟨htr, hc1⟩ := h
            subst htr
            subst hc1
            intro _
            exact hp ▸ rfl
      · simp only [hall, he] at h
        simp at h
  · rw [push_transaction, if_pos hd] at h
    exact absurd h (by simp)
  case neg =>
    rw [push_transaction, if_neg hd, hp] at h
    rcases hall : trx.trx.actions.all (fun act => env.satisfied c.tokenDb.current trx.trx act)
        with _ | _
    · simp only [hall] at h
      simp at h
      obtain ⟨htr, hc1⟩ := h
      subst htr
      subst hc1
      intro hx
      simp at hx
    · rcases he : env.exec trx.trx deadline c.db.current c.tokenDb.current with
        ⟨db1, tok1, executed⟩ | ⟨db1, tok1, e1⟩ | ⟨db1, tok1, e1⟩
      · simp only [hall, he] at h
        simp at h
        obtain ⟨htr, hc1⟩ := h
        subst htr
        subst hc1
        intro _
        exact ⟨executed, rfl⟩
      · rcases hsb : failure_is_subjective e1 with _ | _ <;>
          · simp only [hall, he, hsb] at h
            simp at h
            obtain ⟨htr, hc1⟩ := h
            subst htr
            subst hc1
            intro hx
            simp at hx
      · simp only [hall, he] at h
        simp at h

/-- An environment whose transaction execution succeeds, bumping the
handler-owned component of the state store and producing one action
receipt. -/
def envOk : Env :=
  { exec := fun _ _ db tok => .okr { db with rest := db.rest + 1 } tok [11]
    satisfied := fun _ _ _ => true }

/-- A pending state with empty lists. -/
def pendC3 : PendingState := { blockState := bsTemplate, actions := [] }

/-- A controller holding pendC3. -/
def ctlC3 : Controller := { ctrlTemplate with pending := some pendC3 }

/-- A concrete input transaction. -/
def trxC3 : TrxMeta := mkTrxMeta { expiration := 1, actions := [], signatures := [] }

/-- C3 witness: a concrete successful push leaves the appended receipt,
metadata and action receipts in the pending block. -/
theorem c3_block_restore_point_witness :
    ctlC3.pending = some pendC3 ∧
    ∃ executed, (push_transaction envOk trxC3 5 false ctlC3).2.pending = some
      { blockState := { pendC3.blockState with
          block := { pendC3.blockState.block with
            transactions := pendC3.blockState.block.transactions
              ++ [{ status := .executed, trx := trxC3.trx }] }
          trxs := pendC3.blockState.trxs ++ [{ trxC3 with accepted := true }] }
        actions := pendC3.actions ++ executed } := by
  refine ⟨rfl, ?_⟩
  exact (c3_block_restore_point envOk trxC3 5 ctlC3 pendC3 rfl _ _ rfl).2.2 rfl

/-! ### C2: store rollback around the pending block -/

/-- Run a list of push_transaction calls (metadata, deadline, implicit flag)
between start_block and commit/abort, keeping only the controller state. -/
def runPushes (env : Env) (ps : List (TrxMeta × Nat × Bool)) (c : Controller) : Controller :=
  match ps with
  | [] => c
  | q :: rest => runPushes env rest (push_transaction env q.1 q.2.1 q.2.2 c).2

/-- push_transaction never touches the undo stack, the committed revision,
the token savepoints, or the presence of the pending block. -/
theorem push_transaction_session_frame (env : Env) (trx : TrxMeta) (deadline : Nat)
    (implicit : Bool) (c : Controller) :
    (push_transaction env trx deadline implicit c).2.db.undoStack = c.db.undoStack ∧
    (push_transaction env trx deadline implicit c).2.db.committedRev = c.db.committedRev ∧
    (push_transaction env trx deadline implicit c).2.tokenDb.savepoints
      = c.tokenDb.savepoints ∧
    (push_transaction env trx deadline implicit c).2.pending.isSome = c.pending.isSome := by
  by_cases hd : deadline = timePointMin
  · simp [push_transaction, hd]
  rcases hp : c.pending with _ | p
  · simp [push_transaction, hd, hp]
  rcases hall : (!implicit
      && !(trx.trx.actions.all fun act => env.satisfied c.tokenDb.current trx.trx act))
      with _ | _
  · rcases he : env.exec trx.trx deadline c.db.current c.tokenDb.current with
      ⟨db1, tok1, executed⟩ | ⟨db1, tok1, e1⟩ | ⟨db1, tok1, e1⟩
    · simp [push_transaction, hd, hp, hall, he]
    · rcases hsb : failure_is_subjective e1 with _ | _ <;>
        simp [push_transaction, hd, hp, hall, he, hsb]
    · simp [push_transaction, hd, hp, hall, he]
  · simp [push_transaction, hd, hp, hall]

/-- runPushes never touches the undo stack, the committed revision, the token
savepoints, or the presence of the pending block. -/
theorem runPushes_session_frame (env : Env) (ps : List (TrxMeta × Nat × Bool))
    (c : Controller) :
    (runPushes env ps c).db.undoStack = c.db.undoStack ∧
    (runPushes env ps c).db.committedRev = c.db.committedRev ∧
    (runPushes env ps c).tokenDb.savepoints = c.tokenDb.savepoints ∧
    (runPushes env ps c).pending.isSome = c.pending.isSome := by
  induction ps generalizing c with
  | nil => exact ⟨rfl, rfl, rfl, rfl⟩
  | cons q rest ih =>
    have hf := push_transaction_session_frame env q.1 q.2.1 q.2.2 c
    have hrec := ih (push_transaction env q.1 q.2.1 q.2.2 c).2
    exact ⟨hrec.1.trans hf.1, hrec.2.1.trans hf.2.1, hrec.2.2.1.trans hf.2.2.1,
      hrec.2.2.2.trans hf.2.2.2⟩

/-- start_block under its two assertions opens one undo session (pushing the
current state-store contents) and one token savepoint tagged with the
pre-start revision (holding the current token contents), and installs a
pending state. -/
theorem start_block_opens_sessions (when cc : Nat) (c : Controller)
    (h1 : c.pending = none) (h2 : c.db.revision = c.head.blockNum) :
    (start_block when cc c).1 = .ok () ∧
    (start_block when cc c).2.db.undoStack = c.db.current :: c.db.undoStack ∧
    (start_block when cc c).2.db.committedRev = c.db.committedRev ∧
    (start_block when cc c).2.tokenDb.savepoints
      = (c.db.revision, c.tokenDb.current) :: c.tokenDb.savepoints ∧
    (start_block when cc c).2.pending.isSome = true := by
  have h1' : c.pending.isSome = false := by simp [h1]
  have h2' : ¬ c.db.revision ≠ c.head.blockNum := fun hh => hh h2
  refine ⟨?_, ?_, ?_, ?_, ?_⟩ <;>
    simp only [start_block, h1', Bool.false_eq_true, if_false, if_neg h2',
      TokenDb.new_savepoint] <;>
    first
      | rfl
      | (split <;> rfl)

/-- C2 amended: an exception inside start_block leaves the controller - both
store digests included - exactly as it was, and a start_block followed by any
sequence of push_transaction calls followed by abort_block restores both
store digests to their values from before the start_block.  (An exception
captured inside push_transaction, by contrast, leaves the partial store
mutations of the failed transaction in the open session: see the
counterexample.) -/
theorem c2_amended (env : Env) (when cc : Nat) (ps : List (TrxMeta × Nat × Bool))
    (c : Controller) (h1 : c.pending = none) (h2 : c.db.revision = c.head.blockNum) :
    (∀ (c0 c0' : Controller) (e : ChainError),
      start_block when cc c0 = (.threw e, c0') → c0' = c0) ∧
    (abort_block (runPushes env ps (start_block when cc c).2)).db.current = c.db.current ∧
    (abort_block (runPushes env ps (start_block when cc c).2)).tokenDb.current
      = c.tokenDb.current := by
  refine ⟨?_, ?_, ?_⟩
  · intro c0 c0' e hsb
    by_cases ha : c0.pending.isSome
    · simp only [start_block, ha, if_true, Prod.mk.injEq] at hsb
      exact hsb.2.symm
    · by_cases hb : c0.db.revision ≠ c0.head.blockNum
      · simp only [start_block, ha, Bool.false_eq_true, if_false, if_pos hb,
          Prod.mk.injEq] at hsb
        exact hsb.2.symm
      · simp only [start_block, ha, Bool.false_eq_true, if_false, if_neg hb,
          Prod.mk.injEq] at hsb
        exact absurd hsb.1 (by simp)
  all_goals
    have hopen := start_block_opens_sessions when cc c h1 h2
  all_goals
    have hframe := runPushes_session_frame env ps (start_block when cc c).2
  all_goals
    have hps : (runPushes env ps (start_block when cc c).2).pending.isSome = true :=
      hframe.2.2.2.trans hopen.2.2.2.2
  all_goals
    rcases hc2p : (runPushes env ps (start_block when cc c).2).pending with _ | p2
  · rw [hc2p] at hps
    simp at hps
  case some =>
    have hstack : (runPushes env ps (start_block when cc c).2).db.undoStack
        = c.db.current :: c.db.undoStack := hframe.1.trans hopen.2.1
    simp only [abort_block, hc2p, Database.undo, hstack]
  · rw [hc2p] at hps
    simp at hps
  case some =>
    have hsp : (runPushes env ps (start_block when cc c).2).tokenDb.savepoints
        = (c.db.revision, c.tokenDb.current) :: c.tokenDb.savepoints :=
      hframe.2.2.1.trans hopen.2.2.2.1
    simp only [abort_block, hc2p, TokenDb.rollback_to_latest_savepoint, hsp]

/-- An environment whose transaction execution throws a captured fc exception
after having bumped the handler-owned component of the state store. -/
def envC2Fail : Env :=
  { exec := fun _ _ db tok => .fail { db with rest := db.rest + 1 } tok (.custom 7)
    satisfied := fun _ _ _ => true }

/-- A controller with an open pending block (one undo session, one
savepoint). -/
def ctlC2 : Controller :=
  { ctrlTemplate with
    db := { current := dbValTemplate, undoStack := [dbValTemplate], committedRev := 0 },
    tokenDb := { current := 3, savepoints := [(0, 3)] },
    pending := some { blockState := bsTemplate, actions := [] } }

/-- A concrete input transaction. -/
def trxC2 : TrxMeta := mkTrxMeta { expiration := 2, actions := [], signatures := [] }

/-- C2 counterexample: a push_transaction whose exception is captured leaves
the state-store digest changed - the partial effects of the failed
transaction stay in the open session - so a digest taken before the failing
push_transaction differs from one taken after it. -/
theorem c2_counterexample :
    (push_transaction envC2Fail trxC2 5 false ctlC2).1
      = .ok { receipt := none, except := some (.custom 7) } ∧
    (push_transaction envC2Fail trxC2 5 false ctlC2).2.db.current ≠ ctlC2.db.current := by
  exact ⟨rfl, by decide⟩

/-- A controller with no pending block and matching revision, ready for
start_block. -/
def ctlC2W : Controller := { ctrlTemplate with tokenDb := { current := 9, savepoints := [] } }

/-- C2 witness: a concrete start_block, one failing push, then abort_block
restores both store digests to their pre-start values. -/
theorem c2_amended_witness :
    ctlC2W.pending = none ∧
    ctlC2W.db.revision = ctlC2W.head.blockNum ∧
    (abort_block (runPushes envC2Fail [(trxC2, 5, false)]
        (start_block 50 0 ctlC2W).2)).db.current = ctlC2W.db.current ∧
    (abort_block (runPushes envC2Fail [(trxC2, 5, false)]
        (start_block 50 0 ctlC2W).2)).tokenDb.current = ctlC2W.tokenDb.current := by
  refine ⟨rfl, rfl, ?_, ?_⟩
  · exact (c2_amended envC2Fail 50 0 [(trxC2, 5, false)] ctlC2W rfl rfl).2.1
  · exact (c2_amended envC2Fail 50 0 [(trxC2, 5, false)] ctlC2W rfl rfl).2.2

/-! ### C6: promotion of the proposed schedule in start_block -/

/-- C6: during a successful start_block, the proposed schedule is moved into
the pending schedule of the new pending block state and the proposal is
cleared from the global properties exactly when all four conditions hold: a
proposed_schedule_block_num is set, it is at most the pending block state's
dpos_irreversible_blocknum, the pending schedule is empty, and no pending
schedule was just promoted to active in this same start_block. -/
theorem c6_proposed_schedule_promotion (when cc : Nat) (c : Controller)
    (h1 : c.pending = none) (h2 : c.db.revision = c.head.blockNum) :
    let bs0 := { (BlockState.generate c.head when).set_confirmed cc with inCurrentChain := true }
    let pp := bs0.maybe_promote_pending
    let cond := (∃ n, c.db.current.gpo.proposed_schedule_block_num = some n ∧
        n ≤ pp.1.dposIrreversibleBlocknum) ∧
      pp.1.pendingSchedule.producers = [] ∧ pp.2 = false
    (start_block when cc c).1 = .ok () ∧
    (cond →
      (start_block when cc c).2.pending.map (fun q => q.blockState.pendingSchedule)
        = some c.db.current.gpo.proposed_schedule ∧
      (start_block when cc c).2.pending.map (fun q => q.blockState.pendingScheduleLibNum)
        = some pp.1.blockNum ∧
      (start_block when cc c).2.db.current.gpo.proposed_schedule_block_num = none ∧
      (start_block when cc c).2.db.current.gpo.proposed_schedule
        = { version := 0, producers := [] }) ∧
    (¬ cond →
      (start_block when cc c).2.pending.map (fun q => q.blockState.pendingSchedule)
        = some pp.1.pendingSchedule ∧
      (start_block when cc c).2.pending.map (fun q => q.blockState.pendingScheduleLibNum)
        = some pp.1.pendingScheduleLibNum ∧
      (start_block when cc c).2.db.current.gpo = c.db.current.gpo) := by
  intro bs0 pp cond
  have h1' : c.pending.isSome = false := by simp [h1]
  have h2' : ¬ c.db.revision ≠ c.head.blockNum := fun hh => hh h2
  have hcond : shouldPromoteProposed c.db.current.gpo pp.1 pp.2 = true ↔ cond := by
    unfold shouldPromoteProposed
    rcases hn : c.db.current.gpo.proposed_schedule_block_num with _ | n <;>
      simp [hn, cond, List.isEmpty_iff, Bool.not_eq_true', and_assoc]
  refine ⟨?_, ?_, ?_⟩
  · simp only [start_block, h1', Bool.false_eq_true, if_false, if_neg h2']
  · intro hc
    have hpr : shouldPromoteProposed c.db.current.gpo pp.1 pp.2 = true := hcond.mpr hc
    refine ⟨?_, ?_, ?_, ?_⟩ <;>
      simp [start_block, h1', if_neg h2', hpr, clearExpiredInputTransactions,
        BlockState.set_new_producers, pp, bs0]
  · intro hc
    have hpr : shouldPromoteProposed c.db.current.gpo pp.1 pp.2 = false := by
      rcases hb : shouldPromoteProposed c.db.current.gpo pp.1 pp.2 with _ | _
      · rfl
      · exact absurd (hcond.mp hb) hc
    refine ⟨?_, ?_, ?_⟩ <;>
      simp [start_block, h1', if_neg h2', hpr, clearExpiredInputTransactions, pp, bs0]

/-- A controller ready for start_block whose head carries an empty pending
schedule, whose global properties hold a proposal set in block 1, and whose
head dpos-irreversible number has reached it. -/
def ctlC6 : Controller :=
  { ctrlTemplate with
    head := { bsTemplate with id := 70, blockNum := 3, dposIrreversibleBlocknum := 2 },
    db := { current := { dbValTemplate with gpo :=
              { proposed_schedule_block_num := some 1,
                proposed_schedule := { version := 5, producers := [4, 6] },
                max_transaction_lifetime := 3600 } },
            undoStack := [], committedRev := 3 } }

/-- C6 witness: at a concrete state satisfying the four conditions,
start_block moves the proposed schedule into pending and clears the
proposal. -/
theorem c6_proposed_schedule_promotion_witness :
    ctlC6.pending = none ∧
    ctlC6.db.revision = ctlC6.head.blockNum ∧
    (start_block 40 0 ctlC6).1 = .ok () ∧
    (start_block 40 0 ctlC6).2.pending.map (fun q => q.blockState.pendingSchedule)
      = some { version := 5, producers := [4, 6] } ∧
    (start_block 40 0 ctlC6).2.db.current.gpo.proposed_schedule_block_num = none := by
  have h := c6_proposed_schedule_promotion 40 0 ctlC6 rfl rfl
  refine ⟨rfl, rfl, h.1, ?_, ?_⟩
  · exact (h.2.1 ⟨⟨1, rfl, by decide⟩, rfl, rfl⟩).1
  · exact (h.2.1 ⟨⟨1, rfl, by decide⟩, rfl, rfl⟩).2.2.1

/-! ### C5: on_irreversible -/

/-- C5: when on_irreversible completes (the block log is nonempty and, if the
block directly extends the log head, the linkage assertion holds), the block
is appended to the log exactly when its number is one above the log head's
number; in every case the irreversible_block signal is fired, the state store
is committed at the block's number, and every token savepoint tagged at most
the block's number is popped, leaving the two stores in lockstep. -/
theorem c5_on_irreversible (s : BlockState) (c : Controller) (logHead : LogEntry)
    (hlog : c.blog.getLast? = some logHead)
    (hlink : s.blockNum - 1 = logHead.blockNum → s.block.header.previous = logHead.id) :
    (on_irreversible s c).1 = .ok () ∧
    (on_irreversible s c).2.blog
      = (if s.blockNum - 1 = logHead.blockNum then c.blog ++ [blockStateLogEntry s]
         else c.blog) ∧
    (on_irreversible s c).2.events = c.events ++ [Event.irreversibleBlock s.blockNum] ∧
    (on_irreversible s c).2.db.current = c.db.current ∧
    (on_irreversible s c).2.db.committedRev
      = max c.db.committedRev (min s.blockNum c.db.revision) ∧
    (on_irreversible s c).2.db.undoStack = c.db.undoStack.take (c.db.revision - s.blockNum) ∧
    (on_irreversible s c).2.tokenDb.current = c.tokenDb.current ∧
    (on_irreversible s c).2.tokenDb.savepoints
      = c.tokenDb.savepoints.filter (fun sp => s.blockNum < sp.1) := by
  by_cases heq : s.blockNum - 1 = logHead.blockNum
  · have hprev : s.block.header.previous = logHead.id := hlink heq
    have hprev' : ¬ s.block.header.previous ≠ logHead.id := fun hh => hh hprev
    refine ⟨?_, ?_, ?_, ?_, ?_, ?_, ?_, ?_⟩ <;>
      simp [on_irreversible, hlog, heq, hprev', Database.commit, TokenDb.pop_savepoints]
  · have hner : s.blockNum = logHead.blockNum → ¬ logHead.blockNum < s.blockNum - 1 := by
      intro hbn
      omega
    by_cases hgt : logHead.blockNum < s.blockNum - 1
    · have hne2 : s.blockNum ≠ logHead.blockNum := by
        intro hbn
        exact hner hbn hgt
      refine ⟨?_, ?_, ?_, ?_, ?_, ?_, ?_, ?_⟩ <;>
        simp [on_irreversible, hlog, heq, hgt, hne2, Database.commit, TokenDb.pop_savepoints]
    · refine ⟨?_, ?_, ?_, ?_, ?_, ?_, ?_, ?_⟩ <;>
        simp [on_irreversible, hlog, heq, hgt, Database.commit, TokenDb.pop_savepoints]

/-- A controller with a one-entry block log, a two-revision undo stack, and
two token savepoints. -/
def ctlC5 : Controller :=
  { ctrlTemplate with
    db := { current := dbValTemplate, undoStack := [dbValTemplate], committedRev := 1 },
    tokenDb := { current := 8, savepoints := [(2, 7), (1, 6)] },
    blog := [{ id := 100, previous := 0, blockNum := 1 }] }

/-- A block state directly extending the log head of ctlC5. -/
def bsC5 : BlockState :=
  { bsTemplate with
    id := 200, blockNum := 2,
    header := mkHeader 100 30,
    block := { header := mkHeader 100 30, transactions := [], blockExtensions := 0 } }

/-- C5 witness: a concrete irreversible block one past the log head is
appended, the signal fires, the store is committed at its number and both
savepoints tagged at most its number are popped. -/
theorem c5_on_irreversible_witness :
    ctlC5.blog.getLast? = some { id := 100, previous := 0, blockNum := 1 } ∧
    bsC5.block.header.previous = 100 ∧
    (on_irreversible bsC5 ctlC5).1 = .ok () ∧
    (on_irreversible bsC5 ctlC5).2.blog
      = ctlC5.blog ++ [blockStateLogEntry bsC5] ∧
    (on_irreversible bsC5 ctlC5).2.tokenDb.savepoints = [] := by
  have h := c5_on_irreversible bsC5 ctlC5 { id := 100, previous := 0, blockNum := 1 } rfl
    (fun _ => rfl)
  refine ⟨rfl, rfl, h.1, ?_, ?_⟩
  · have hb := h.2.1
    simpa using hb
  · have hs := h.2.2.2.2.2.2.2
    simpa using hs

/-! ### C1: maybe_switch_forks reorg failure recovery -/

/-- The genesis block state of the C1 scenario (block 1, id 100). -/
def gBs : BlockState :=
  { bsTemplate with
    id := 100, blockNum := 1,
    header := mkHeader 0 10,
    block := { header := mkHeader 0 10, transactions := [], blockExtensions := 0 },
    dposIrreversibleBlocknum := 1,
    inCurrentChain := true, validated := true }

/-- The transaction applied by block a2 of the old branch. -/
def trxC1 : Transaction :=
  { expiration := 1000, actions := [{ domain := 1, key := 1, name := 1, payload := 1 }],
    signatures := [5] }

/-- Block 2 of the old branch (id 202), the controller head before the
switch; it carries one applied transaction. -/
def a2Bs : BlockState :=
  { bsTemplate with
    id := 202, blockNum := 2,
    header := mkHeader 100 20,
    block := { header := mkHeader 100 20,
               transactions := [{ status := .executed, trx := trxC1 }],
               blockExtensions := 0 },
    dposIrreversibleBlocknum := 1,
    inCurrentChain := true, validated := true,
    trxs := [mkTrxMeta trxC1] }

/-- Block 2 of the new branch (id 302), an empty block. -/
def b2Bs : BlockState :=
  { bsTemplate with
    id := 302, blockNum := 2,
    header := mkHeader 100 21,
    block := { header := mkHeader 100 21, transactions := [], blockExtensions := 0 },
    dposIrreversibleBlocknum := 1 }

/-- Block 3 of the new branch (id 303): its block carries an unsupported
block extension, so applying it throws. -/
def b3Bs : BlockState :=
  { bsTemplate with
    id := 303, blockNum := 3,
    header := mkHeader 302 31,
    block := { header := mkHeader 302 31, transactions := [], blockExtensions := 1 },
    dposIrreversibleBlocknum := 1 }

/-- The C1 environment: executing a transaction bumps the handler-owned state
component and yields one action receipt. -/
def envC1 : Env :=
  { exec := fun _ _ db tok => .okr { db with rest := db.rest + 1 } tok [11]
    satisfied := fun _ _ _ => true }

/-- The state-store contents at genesis. -/
def dbValG : DbVal := dbValTemplate

/-- The state-store contents after applying a2 (the handler-owned component
was bumped by trxC1). -/
def dbValA2 : DbVal := { dbValTemplate with rest := 1, summaries := [(2 % 65536, 1)] }

/-- The pre-switch controller of the C1 scenario: head a2, the new branch
b2-b3 already inserted in the fork database (b3 is the fork-database head),
one retained undo state and one token savepoint for block 2. -/
def ctlC1 : Controller :=
  { db := { current := dbValA2, undoStack := [dbValG], committedRev := 1 },
    tokenDb := { current := 41, savepoints := [(1, 40)] },
    pending := none,
    head := a2Bs,
    forkDb := { blocks := [gBs, a2Bs, b2Bs, b3Bs] },
    unapplied := [],
    blog := [{ id := 100, previous := 0, blockNum := 1 }],
    events := [] }

/-- C1: evaluating the embedded maybe_switch_forks on the concrete reorg
scenario in which applying the second block of the new branch throws.  The
recovery path of the source iterates its pop loop from
(ritr + 1).base() - one before branches.first.begin(), ritr having been
advanced to rend() by the invalidation loop - against branches.second.end(),
an iterator into a different vector, so instead of popping exactly the blocks
applied during the switch and re-applying the old branch, it pops until
pop_block's assertion fires.  The call therefore throws
popBeyondIrreversible instead of rethrowing the original exception, and
leaves the head at genesis (id 100) rather than at the pre-call head a2
(id 202), with both store digests changed. -/
theorem c1_reorg_recovery_corrupts_state :
    (maybe_switch_forks envC1 20 ctlC1).1 = .threw .popBeyondIrreversible ∧
    (maybe_switch_forks envC1 20 ctlC1).2.head.id = gBs.id ∧
    ctlC1.head.id = a2Bs.id ∧
    gBs.id ≠ a2Bs.id ∧
    (maybe_switch_forks envC1 20 ctlC1).2.db.current ≠ ctlC1.db.current ∧
    (maybe_switch_forks envC1 20 ctlC1).2.tokenDb.current ≠ ctlC1.tokenDb.current := by
  refine ⟨rfl, rfl, rfl, by decide, by decide, by decide⟩

end EvtChain
